import Mathlib

/-!
Verification of the distributed mutual-exclusion core of xxscreeps
(`Mutex`, `Lock`, `LockHost` in the storage/mutex module).

The TypeScript source is single-threaded and cooperatively scheduled: every
`async` function runs synchronously between its `await` points.  We embed the
`Mutex` class as a deterministic event machine: an `Event` is one of the
macrotask-level occurrences that can re-enter the Mutex (an API call, a
channel message delivery, a response to an outstanding arbiter request, a
timer firing), and `step` runs the corresponding synchronous code segment,
returning the updated instance state together with the ordered list of
externally visible effects that segment produces.  Suspended `await`s are
represented by explicit continuation states (`AcqState`, `ypipe`).
-/

namespace Xxscreeps

/-- Channel message tags: `type Message = 'waiting' | 'unlocked'` in the source. -/
inductive Message
  | waiting
  | unlocked
deriving DecidableEq, Repr

/-- Externally visible effects of one synchronous execution segment of the
Mutex code: settlement of the promise returned by a `lock()` call
(identified by a caller-chosen id), settlement of an `unlock()` call,
`channel.publish`, and issuing an arbiter request (`lockable.lock()` is
`reqTry`, `lockable.unlock()` is `reqRel`).  `consoleError` is the
`.catch(console.error)` swallow in the waiting-listener's yield path. -/
inductive Effect
  | resolveLock (id : Nat)
  | rejectLock (id : Nat)
  | publish (m : Message)
  | reqTry
  | reqRel
  | unlockResolved
  | unlockRejected
  | consoleError
deriving DecidableEq, Repr

/-- Continuation state of the (at most one) in-flight acquisition pipeline of
`Mutex.lock`: suspended at `await this.yieldPromise`, at the initial
`await this.lockable.lock()`, or inside the contended wait (with the number
of currently outstanding `lockable.lock()` requests issued by `tryLock`).
Only one `lock()` call can be past the queue/fast-path branches at a time,
because that branch requires `lockedOrPending = false` and immediately sets
it, so later callers are queued. -/
inductive AcqState
  | idle
  | awaitYield (id : Nat)
  | awaitFirstTry (id : Nat)
  | contended (id : Nat) (outstanding : Nat)
deriving DecidableEq, Repr

/-- Who invoked `yieldLock`: `unlock()` awaits it (so `unlock`'s promise
settles with it), while the waiting-listener fires it with
`.catch(console.error)`. -/
inductive YieldSrc
  | fromUnlock
  | fromListener
deriving DecidableEq, Repr

/-- State of one `Mutex` instance, mirroring the class fields:
`lockedOrPending`, the presence of `waitingListener`, the presence of the
unsettled `yieldPromise` (whose pending timer and channel listener live
exactly as long as the promise), and `localQueue` (ids of queued `lock()`
callers, oldest first).  `acq` is the continuation of the in-flight
acquisition, `ypipe` the continuation of a `yieldLock` suspended at
`await this.lockable.unlock()`, and `zombies` counts `tryLock` requests
still in flight after their contended wait already finished (their `then`
callbacks still run when the response arrives). -/
structure MutexSt where
  lockedOrPending : Bool := false
  waitingListener : Bool := false
  yieldPromise : Bool := false
  localQueue : List Nat := []
  acq : AcqState := .idle
  ypipe : Option YieldSrc := none
  zombies : Nat := 0
deriving DecidableEq, Repr

/-- The freshly constructed Mutex. -/
def mutexInit : MutexSt := {}

/-- Events that can re-enter the Mutex: API calls (`callLock id` names the
promise the call returns), delivery of a peer's broadcast, a response or
rejection of the acquisition pipeline's outstanding `lockable.lock()`
request, a response to a zombie request, settlement of the outstanding
`lockable.unlock()` release, the contended-wait `setInterval` firing, and
the yield handshake's `setTimeout` firing.  Events that have no outstanding
counterpart in the state (for example `tryResp` with no pending request)
are no-ops. -/
inductive Event
  | callLock (id : Nat)
  | callUnlock
  | msg (m : Message)
  | tryResp (ok : Bool)
  | tryErr
  | zombieResp (ok : Bool)
  | relResp
  | relErr
  | timer
  | yieldTimer
deriving DecidableEq, Repr

/-- Source constant: the contended wait retries via `setInterval(tryLock, 500)`. -/
def retryIntervalMs : Nat := 500

/-- Source constant: the yield handshake settles via `setTimeout(finish, 500)`. -/
def yieldTimeoutMs : Nat := 500

/-- Start of `yieldLock()`: synchronously install `yieldPromise` (with its
timer and unlocked-listener), then issue `this.lockable.unlock()` —
the release request goes out in the same synchronous segment, before
anything else can run. -/
def yieldStart (s : MutexSt) (src : YieldSrc) : MutexSt × List Effect :=
  ({ s with yieldPromise := true, ypipe := some src }, [.reqRel])

/-- The `finish` closure of `yieldLock`: clear the timer and listener and
settle `yieldPromise`.  A `lock()` call suspended at
`await this.yieldPromise` resumes in the following microtask: it installs
`waitingListener` and issues the initial `lockable.lock()`. -/
def yieldFinish (s : MutexSt) : MutexSt × List Effect :=
  match s.acq with
  | .awaitYield id =>
      ({ s with yieldPromise := false, waitingListener := true,
                acq := .awaitFirstTry id }, [.reqTry])
  | _ => ({ s with yieldPromise := false }, [])

/-- The contended wait's channel listener: on an `unlocked` message it calls
`tryLock()`, which issues one more `lockable.lock()` request. -/
def contendedOnUnlocked : MutexSt × List Effect → MutexSt × List Effect
  | (s, fx) =>
    match s.acq with
    | .contended id o => ({ s with acq := .contended id (o + 1) }, fx ++ [.reqTry])
    | _ => (s, fx)

/-- The `waitingListener` handler: on a `waiting` message it unsubscribes
itself, and if the instance is not `lockedOrPending` (soft-held), it starts
yielding the arbiter lock back. -/
def waitingHandler (s : MutexSt) : MutexSt × List Effect :=
  if s.waitingListener then
    if s.lockedOrPending then
      ({ s with waitingListener := false }, [])
    else
      yieldStart { s with waitingListener := false } .fromListener
  else (s, [])

/-- One synchronous execution segment of the `Mutex` code, triggered by
`e`, exactly following the source of `lock`, `unlock` and `yieldLock`. -/
def step (s : MutexSt) : Event → MutexSt × List Effect
  | .callLock id =>
    if s.lockedOrPending then
      ({ s with localQueue := s.localQueue ++ [id] }, [])
    else if s.waitingListener then
      ({ s with lockedOrPending := true }, [.resolveLock id])
    else
      if s.yieldPromise then
        ({ s with lockedOrPending := true, acq := .awaitYield id },
         [.publish .waiting])
      else
        ({ s with lockedOrPending := true, waitingListener := true,
                  acq := .awaitFirstTry id }, [.reqTry])
  | .callUnlock =>
    if s.lockedOrPending then
      match s.localQueue with
      | w :: rest =>
          ({ s with localQueue := rest }, [.resolveLock w, .unlockResolved])
      | [] =>
        if s.waitingListener then
          ({ s with lockedOrPending := false }, [.unlockResolved])
        else
          yieldStart { s with lockedOrPending := false } .fromUnlock
    else
      (s, [.unlockRejected])
  | .msg .waiting => waitingHandler s
  | .msg .unlocked =>
      contendedOnUnlocked (if s.yieldPromise then yieldFinish s else (s, []))
  | .tryResp ok =>
    match s.acq with
    | .awaitFirstTry id =>
      if ok then ({ s with acq := .idle }, [.resolveLock id])
      else ({ s with acq := .contended id 1 }, [.reqTry])
    | .contended id o =>
      if ok then
        ({ s with acq := .idle, zombies := s.zombies + (o - 1) },
         [.resolveLock id])
      else ({ s with acq := .contended id (o - 1) }, [.publish .waiting])
    | _ => (s, [])
  | .tryErr =>
    match s.acq with
    | .awaitFirstTry id => ({ s with acq := .idle }, [.rejectLock id])
    | .contended id o =>
        ({ s with acq := .idle, zombies := s.zombies + (o - 1) },
         [.rejectLock id])
    | _ => (s, [])
  | .zombieResp ok =>
    if s.zombies = 0 then (s, [])
    else ({ s with zombies := s.zombies - 1 },
          if ok then [] else [.publish .waiting])
  | .relResp =>
    match s.ypipe with
    | some .fromUnlock =>
        ({ s with ypipe := none }, [.publish .unlocked, .unlockResolved])
    | some .fromListener => ({ s with ypipe := none }, [.publish .unlocked])
    | none => (s, [])
  | .relErr =>
    match s.ypipe with
    | some .fromUnlock => ({ s with ypipe := none }, [.unlockRejected])
    | some .fromListener => ({ s with ypipe := none }, [.consoleError])
    | none => (s, [])
  | .timer =>
    match s.acq with
    | .contended id o => ({ s with acq := .contended id (o + 1) }, [.reqTry])
    | _ => (s, [])
  | .yieldTimer =>
      if s.yieldPromise then yieldFinish s else (s, [])

/-- Run a list of events, threading the state and concatenating effects. -/
def runM (s : MutexSt) : List Event → MutexSt × List Effect
  | [] => (s, [])
  | e :: evs =>
      ((runM (step s e).1 evs).1, (step s e).2 ++ (runM (step s e).1 evs).2)

/-- Project the id granted by a `resolveLock` effect. -/
def grantedId : Effect → Option Nat
  | .resolveLock id => some id
  | _ => none

/-- Effects that contact the arbiter (a `tryAcquire` or `release` request). -/
def isArbiterEffect : Effect → Bool
  | .reqTry => true
  | .reqRel => true
  | _ => false

/-- Effects that publish on the broadcast channel. -/
def isPublish : Effect → Bool
  | .publish _ => true
  | _ => false

/-- The arbiter host (`class LockHost extends Lock`): a single authoritative
boolean `locked`, initially false. -/
structure LockHost where
  locked : Bool := false
deriving DecidableEq, Repr

/-- Source `LockHost.lock()`: `if (this.locked) return false;
return this.locked = true;` — an atomic test-and-set returning whether the
acquisition succeeded, with no state change on failure. -/
def LockHost.lock (h : LockHost) : Bool × LockHost :=
  if h.locked then (false, h) else (true, { h with locked := true })

/-- Source `LockHost.unlock()`: `this.locked = false;` — unconditional. -/
def LockHost.unlock (h : LockHost) : LockHost :=
  { h with locked := false }

/-- Operations that acquirers (separate Mutex instances, or distinct `lock()`
calls, numbered by `who`) perform on one shared lock host.  `tryAcquire`
is the host's `lock()`, `release` the host's `unlock()`. -/
inductive HostOp
  | tryAcquire (who : Nat)
  | release (who : Nat)
deriving DecidableEq, Repr

/-- One lock host together with the identity of the acquirer currently
inside its critical section: `holder = some w` exactly while acquirer `w`
is between a `tryAcquire` that returned true and its matching `release`. -/
structure HostSys where
  host : LockHost := {}
  holder : Option Nat := none
deriving DecidableEq, Repr

/-- The initial system: host unlocked, nobody in a critical section. -/
def hostInit : HostSys := {}

/-- Apply one acquirer operation to the shared host.  Any acquirer may
attempt `tryAcquire` at any time; a successful attempt makes it the
holder.  A `release` is only meaningful as the matching release of the
current holder (the Mutex protocol only releases a lock it acquired), so a
release by a non-holder yields `none` (an invalid trace). -/
def hostStep (s : HostSys) : HostOp → Option HostSys
  | .tryAcquire w =>
      some { host := (s.host.lock).2,
             holder := if (s.host.lock).1 then some w else s.holder }
  | .release w =>
      if s.holder = some w then
        some { host := s.host.unlock, holder := none }
      else none

/-- Run a trace of host operations; `none` if the trace violates the
matching-release discipline. -/
def hostRun (s : HostSys) : List HostOp → Option HostSys
  | [] => some s
  | op :: ops =>
    match hostStep s op with
    | some s1 => hostRun s1 ops
    | none => none

/-- Embedding of `Mutex.scope(callback)`:
`await this.lock(); try { return await callback(); } finally
{ await this.unlock(); } }`, parametrised by the outcomes of the three
awaited operations.  Returns the result propagated out of `scope` together
with the number of times `unlock()` was invoked.  Per try/finally
semantics, when the `finally` clause's awaited `unlock()` rejects, that
rejection supersedes the completion of the try block. -/
def scopeRun {e a : Type} (lockR : Except e Unit) (action : Except e a)
    (unlockR : Except e Unit) : Except e a × Nat :=
  match lockR with
  | .error err => (.error err, 0)
  | .ok _ =>
    match unlockR with
    | .error err => (.error err, 1)
    | .ok _ => (action, 1)


/-- Claim C3: on the lock host, `tryAcquire` on an unoccupied lock sets
`occupied` and returns true; `tryAcquire` on an occupied lock returns false
with no state change; `release` unconditionally clears `occupied` even when
already clear, so `release` is idempotent. -/
theorem lockHost_semantics (h1 h2 h3 : LockHost)
    (hf : h1.locked = false) (ht : h2.locked = true) :
    h1.lock = (true, { locked := true }) ∧
    h2.lock = (false, h2) ∧
    h3.unlock = { locked := false } ∧
    h3.unlock.unlock = h3.unlock := by
  refine ⟨?_, ?_, rfl, rfl⟩
  · simp [LockHost.lock, hf]
  · simp [LockHost.lock, ht]

theorem lockHost_semantics_witness :
    ({ locked := false } : LockHost).lock = (true, { locked := true }) ∧
    ({ locked := true } : LockHost).lock = (false, { locked := true }) ∧
    ({ locked := true } : LockHost).unlock = { locked := false } ∧
    ({ locked := true } : LockHost).unlock.unlock = ({ locked := true } : LockHost).unlock :=
  lockHost_semantics { locked := false } { locked := true } { locked := true } rfl rfl

/-- Claim C5: in every state with `lockedOrPending = false` (in particular a
fresh Mutex), `unlock()` fails immediately with the not-locked error, the
state is unchanged in every field, and the only effect is the rejection —
no arbiter request, no publish, no queue or listener change. -/
theorem unlock_misuse_error (s : MutexSt) (h : s.lockedOrPending = false) :
    step s .callUnlock = (s, [.unlockRejected]) := by
  simp [step, h]

theorem unlock_misuse_error_witness :
    step mutexInit .callUnlock = (mutexInit, [.unlockRejected]) :=
  unlock_misuse_error mutexInit rfl

/-- Claim C7: an `unlock()` issued while `lockedOrPending` holds and
`localQueue` is non-empty removes and resolves exactly the oldest local
waiter, leaves `lockedOrPending` true, and performs no arbiter call and no
channel publish. -/
theorem unlock_local_handoff (s : MutexSt) (w : Nat) (rest : List Nat)
    (h1 : s.lockedOrPending = true) (h2 : s.localQueue = w :: rest) :
    step s .callUnlock
      = ({ s with localQueue := rest }, [.resolveLock w, .unlockResolved]) ∧
    (step s .callUnlock).1.lockedOrPending = true ∧
    (step s .callUnlock).2.filter isArbiterEffect = [] ∧
    (step s .callUnlock).2.filter isPublish = [] := by
  have hstep : step s .callUnlock
      = ({ s with localQueue := rest }, [.resolveLock w, .unlockResolved]) := by
    simp [step, h1, h2]
  refine ⟨hstep, ?_, ?_, ?_⟩ <;> rw [hstep]
  · exact h1
  · rfl
  · rfl

theorem unlock_local_handoff_witness :
    step { lockedOrPending := true, localQueue := [4, 5] } .callUnlock
      = ({ lockedOrPending := true, localQueue := [5] }, [.resolveLock 4, .unlockResolved]) ∧
    (step { lockedOrPending := true, localQueue := [4, 5] } .callUnlock).1.lockedOrPending = true ∧
    (step { lockedOrPending := true, localQueue := [4, 5] } .callUnlock).2.filter isArbiterEffect = [] ∧
    (step { lockedOrPending := true, localQueue := [4, 5] } .callUnlock).2.filter isPublish = [] :=
  unlock_local_handoff { lockedOrPending := true, localQueue := [4, 5] } 4 [5] rfl rfl

/-- Claim C4: from any state with `lockedOrPending = false` and the
waiting-listener attached (soft-held), `lock()` sets `lockedOrPending` and
resolves in the same synchronous segment with no arbiter request and no
publish; moreover in the concrete uncontended acquire/release cycle
followed by a second `lock()`/`unlock()`, the only arbiter interaction of
the whole trace is the first acquisition's `tryAcquire`. -/
theorem lock_softHeld_fastPath (s : MutexSt) (id : Nat)
    (h1 : s.lockedOrPending = false) (h2 : s.waitingListener = true) :
    step s (.callLock id) = ({ s with lockedOrPending := true }, [.resolveLock id]) ∧
    (step s (.callLock id)).2.filter isArbiterEffect = [] ∧
    (step s (.callLock id)).2.filter isPublish = [] ∧
    (runM mutexInit [.callLock 0, .tryResp true, .callUnlock, .callLock 1,
        .callUnlock]).2.filter isArbiterEffect = [.reqTry] := by
  have hstep : step s (.callLock id)
      = ({ s with lockedOrPending := true }, [.resolveLock id]) := by
    simp [step, h1, h2]
  exact ⟨hstep, by rw [hstep]; rfl, by rw [hstep]; rfl, rfl⟩

theorem lock_softHeld_fastPath_witness :
    step { waitingListener := true } (.callLock 6)
      = ({ lockedOrPending := true, waitingListener := true }, [.resolveLock 6]) ∧
    (step { waitingListener := true } (.callLock 6)).2.filter isArbiterEffect = [] ∧
    (step { waitingListener := true } (.callLock 6)).2.filter isPublish = [] ∧
    (runM mutexInit [.callLock 0, .tryResp true, .callUnlock, .callLock 1,
        .callUnlock]).2.filter isArbiterEffect = [.reqTry] :=
  lock_softHeld_fastPath { waitingListener := true } 6 rfl rfl

/-- Claim C2, counterexample: when the callback fails and the `unlock()` in
the `finally` clause also fails, `scope` propagates the cleanup failure,
not the callback's original failure — the claim's masking clause is false
for this code. -/
theorem scope_counterexample :
    (scopeRun (e := String) (a := Nat) (.ok ()) (.error "callbackFailure")
        (.error "unlockFailure")).1 = .error "unlockFailure" ∧
    (scopeRun (e := String) (a := Nat) (.ok ()) (.error "callbackFailure")
        (.error "unlockFailure")).1 ≠ .error "callbackFailure" := by
  refine ⟨rfl, fun hc => ?_⟩
  exact absurd (Except.error.inj hc) (by decide)

/-- Claim C2, amended: `scope(action)` calls `unlock()` exactly once on every
exit path where `lock()` succeeded (zero times when `lock()` fails, in
which case the lock failure propagates); when `unlock()` succeeds, the
action's original result or failure propagates; when `unlock()` fails, the
failure propagated out of `scope` is the `unlock()` failure, which masks
the action's original failure. -/
theorem scope_unlock_exactly_once {e a : Type} (e0 e2 : e) (action : Except e a) :
    scopeRun (Except.error e0) action (Except.ok ()) = (Except.error e0, 0) ∧
    scopeRun (Except.ok ()) action (Except.ok ()) = (action, 1) ∧
    scopeRun (Except.ok ()) action (Except.error e2) = (Except.error e2, 1) :=
  ⟨rfl, rfl, rfl⟩

/-- Claim C8: after the initial `tryAcquire` of `lock()` returns false the
Mutex is in the contended wait, where an `unlocked` broadcast or a firing
of the periodic 500ms timer each trigger a new `tryAcquire` request, a
failed attempt publishes a `waiting` announcement, and a successful or
erroring attempt resolves (resp. rejects) the `lock()` call and tears the
timer and the unlocked-listener down (the contended continuation is gone;
requests still in flight become zombies).  The final conjunct is the
entry: the initial `tryAcquire` returning false starts the wait and issues
the immediate first retry. -/
theorem lock_contended_wait (s1 s2 : MutexSt) (id o : Nat)
    (h1 : s1.acq = .contended id (o + 1)) (h1y : s1.yieldPromise = false)
    (h2 : s2.acq = .awaitFirstTry id) :
    retryIntervalMs = 500 ∧
    step s1 (.msg .unlocked) = ({ s1 with acq := .contended id (o + 2) }, [.reqTry]) ∧
    step s1 .timer = ({ s1 with acq := .contended id (o + 2) }, [.reqTry]) ∧
    step s1 (.tryResp false) = ({ s1 with acq := .contended id o }, [.publish .waiting]) ∧
    step s1 (.tryResp true)
      = ({ s1 with acq := .idle, zombies := s1.zombies + o }, [.resolveLock id]) ∧
    step s1 .tryErr
      = ({ s1 with acq := .idle, zombies := s1.zombies + o }, [.rejectLock id]) ∧
    step s2 (.tryResp false) = ({ s2 with acq := .contended id 1 }, [.reqTry]) := by
  refine ⟨rfl, ?_, ?_, ?_, ?_, ?_, ?_⟩
  · simp [step, contendedOnUnlocked, h1, h1y]
  · simp [step, h1]
  · simp [step, h1]
  · simp [step, h1]
  · simp [step, h1]
  · simp [step, h2]

theorem lock_contended_wait_witness :
    retryIntervalMs = 500 ∧
    step { lockedOrPending := true, waitingListener := true, acq := .contended 9 1 }
        (.msg .unlocked)
      = ({ lockedOrPending := true, waitingListener := true, acq := .contended 9 2 },
         [.reqTry]) ∧
    step { lockedOrPending := true, waitingListener := true, acq := .contended 9 1 } .timer
      = ({ lockedOrPending := true, waitingListener := true, acq := .contended 9 2 },
         [.reqTry]) ∧
    step { lockedOrPending := true, waitingListener := true, acq := .contended 9 1 }
        (.tryResp false)
      = ({ lockedOrPending := true, waitingListener := true, acq := .contended 9 0 },
         [.publish .waiting]) ∧
    step { lockedOrPending := true, waitingListener := true, acq := .contended 9 1 }
        (.tryResp true)
      = ({ lockedOrPending := true, waitingListener := true, acq := .idle, zombies := 0 },
         [.resolveLock 9]) ∧
    step { lockedOrPending := true, waitingListener := true, acq := .contended 9 1 } .tryErr
      = ({ lockedOrPending := true, waitingListener := true, acq := .idle, zombies := 0 },
         [.rejectLock 9]) ∧
    step { lockedOrPending := true, waitingListener := true, acq := .awaitFirstTry 9 }
        (.tryResp false)
      = ({ lockedOrPending := true, waitingListener := true, acq := .contended 9 1 },
         [.reqTry]) :=
  lock_contended_wait
    { lockedOrPending := true, waitingListener := true, acq := .contended 9 1 }
    { lockedOrPending := true, waitingListener := true, acq := .awaitFirstTry 9 }
    9 0 rfl rfl rfl

/-- Helper: the only synchronous segment of the Mutex that publishes an
`unlocked` broadcast is the resumption after `lockable.unlock()` resolves
(the tail of `yieldLock`). -/
lemma publish_unlocked_only_from_release (s : MutexSt) (e : Event)
    (h : Effect.publish .unlocked ∈ (step s e).2) : e = .relResp := by
  cases e with
  | relResp => rfl
  | callLock id =>
      cases hl : s.lockedOrPending <;> cases hw : s.waitingListener <;>
        cases hy : s.yieldPromise <;> simp [step, hl, hw, hy] at h
  | callUnlock =>
      cases hl : s.lockedOrPending <;> cases hw : s.waitingListener <;>
        cases hq : s.localQueue <;> simp [step, yieldStart, hl, hw, hq] at h
  | msg m =>
      cases m with
      | waiting =>
          cases hl : s.lockedOrPending <;> cases hw : s.waitingListener <;>
            simp [step, waitingHandler, yieldStart, hl, hw] at h
      | unlocked =>
          cases hy : s.yieldPromise <;> cases ha : s.acq <;>
            simp [step, contendedOnUnlocked, yieldFinish, hy, ha] at h
  | tryResp ok =>
      cases ha : s.acq <;> cases ok <;> simp [step, ha] at h
  | tryErr => cases ha : s.acq <;> simp [step, ha] at h
  | zombieResp ok =>
      cases hz : s.zombies <;> cases ok <;> simp [step, hz] at h
  | relErr =>
      cases hp : s.ypipe with
      | none => simp [step, hp] at h
      | some src => cases src <;> simp [step, hp] at h
  | timer => cases ha : s.acq <;> simp [step, ha] at h
  | yieldTimer =>
      cases hy : s.yieldPromise <;> cases ha : s.acq <;>
        simp [step, yieldFinish, hy, ha] at h

/-- Claim C9: beginning to yield (from `unlock()`, conjunct 2, or from the
waiting-listener, conjunct 8) installs `yieldPromise` in the same
synchronous segment that issues the arbiter `release` request; the promise
is settled by whichever of the 500ms timeout or an `unlocked` message
comes first (conjuncts 3 and 4; once settled, the other trigger is a
no-op, conjunct 9), resuming a `lock()` suspended on it, which then
attaches the listener and proceeds to acquire; the `unlocked` broadcast is
published only in the segment where `release` resolves (conjuncts 5 and
7); and a `lock()` arriving while `yieldPromise` is pending first
publishes `waiting` and suspends on the promise (conjunct 6). -/
theorem yield_handshake (s1 s2 s3 s4 s5 s6 s7 : MutexSt) (id : Nat) (e5 : Event)
    (h1a : s1.lockedOrPending = true) (h1b : s1.localQueue = [])
    (h1c : s1.waitingListener = false)
    (h2a : s2.yieldPromise = true) (h2b : s2.acq = .awaitYield id)
    (h3 : s3.ypipe = some .fromUnlock)
    (h4a : s4.lockedOrPending = false) (h4b : s4.waitingListener = false)
    (h4c : s4.yieldPromise = true)
    (h5 : Effect.publish .unlocked ∈ (step s5 e5).2)
    (h6a : s6.waitingListener = true) (h6b : s6.lockedOrPending = false)
    (h7 : s7.yieldPromise = false) :
    yieldTimeoutMs = 500 ∧
    step s1 .callUnlock
      = ({ s1 with lockedOrPending := false, yieldPromise := true,
                   ypipe := some .fromUnlock }, [.reqRel]) ∧
    step s2 .yieldTimer
      = ({ s2 with yieldPromise := false, waitingListener := true,
                   acq := .awaitFirstTry id }, [.reqTry]) ∧
    step s2 (.msg .unlocked)
      = ({ s2 with yieldPromise := false, waitingListener := true,
                   acq := .awaitFirstTry id }, [.reqTry]) ∧
    step s3 .relResp = ({ s3 with ypipe := none }, [.publish .unlocked, .unlockResolved]) ∧
    step s4 (.callLock id)
      = ({ s4 with lockedOrPending := true, acq := .awaitYield id }, [.publish .waiting]) ∧
    e5 = .relResp ∧
    step s6 (.msg .waiting)
      = ({ s6 with waitingListener := false, yieldPromise := true,
                   ypipe := some .fromListener }, [.reqRel]) ∧
    step s7 .yieldTimer = (s7, []) := by
  refine ⟨rfl, ?_, ?_, ?_, ?_, ?_,
    publish_unlocked_only_from_release s5 e5 h5, ?_, ?_⟩
  · simp [step, yieldStart, h1a, h1b, h1c]
  · simp [step, yieldFinish, h2a, h2b]
  · simp [step, yieldFinish, contendedOnUnlocked, h2a, h2b]
  · simp [step, h3]
  · simp [step, h4a, h4b, h4c]
  · simp [step, waitingHandler, yieldStart, h6a, h6b]
  · simp [step, h7]

theorem yield_handshake_witness :
    yieldTimeoutMs = 500 ∧
    step { lockedOrPending := true } .callUnlock
      = ({ yieldPromise := true, ypipe := some .fromUnlock }, [.reqRel]) ∧
    step { yieldPromise := true, acq := .awaitYield 7 } .yieldTimer
      = ({ waitingListener := true, acq := .awaitFirstTry 7 }, [.reqTry]) ∧
    step { yieldPromise := true, acq := .awaitYield 7 } (.msg .unlocked)
      = ({ waitingListener := true, acq := .awaitFirstTry 7 }, [.reqTry]) ∧
    step { ypipe := some .fromUnlock } .relResp
      = (mutexInit, [.publish .unlocked, .unlockResolved]) ∧
    step { yieldPromise := true } (.callLock 7)
      = ({ lockedOrPending := true, yieldPromise := true, acq := .awaitYield 7 },
         [.publish .waiting]) ∧
    Event.relResp = Event.relResp ∧
    step { waitingListener := true } (.msg .waiting)
      = ({ yieldPromise := true, ypipe := some .fromListener }, [.reqRel]) ∧
    step mutexInit .yieldTimer = (mutexInit, []) :=
  yield_handshake { lockedOrPending := true } { yieldPromise := true, acq := .awaitYield 7 }
    { ypipe := some .fromUnlock } { yieldPromise := true } { ypipe := some .fromUnlock }
    { waitingListener := true } mutexInit
    7 .relResp rfl rfl rfl rfl rfl rfl rfl rfl rfl
    (by simp [step]) rfl rfl rfl

/-- Helper: no event other than `callUnlock` ever clears `lockedOrPending`. -/
lemma step_preserves_lockedOrPending (s : MutexSt) (e : Event)
    (he : e ≠ .callUnlock) (h : s.lockedOrPending = true) :
    (step s e).1.lockedOrPending = true := by
  cases e with
  | callUnlock => exact absurd rfl he
  | callLock id => simp [step, h]
  | msg m =>
      cases m with
      | waiting => simp [step, waitingHandler, h]; split <;> simp [h]
      | unlocked =>
          cases hy : s.yieldPromise <;> cases ha : s.acq <;>
            simp [step, contendedOnUnlocked, yieldFinish, hy, ha, h]
  | tryResp ok => cases ha : s.acq <;> cases ok <;> simp [step, ha, h]
  | tryErr => cases ha : s.acq <;> simp [step, ha, h]
  | zombieResp ok => cases hz : s.zombies <;> cases ok <;> simp [step, hz, h]
  | relResp =>
      cases hp : s.ypipe with
      | none => simp [step, hp, h]
      | some src => cases src <;> simp [step, hp, h]
  | relErr =>
      cases hp : s.ypipe with
      | none => simp [step, hp, h]
      | some src => cases src <;> simp [step, hp, h]
  | timer => cases ha : s.acq <;> simp [step, ha, h]
  | yieldTimer =>
      cases hy : s.yieldPromise <;> cases ha : s.acq <;>
        simp [step, yieldFinish, hy, ha, h]

lemma runM_preserves_lockedOrPending (evs : List Event) :
    ∀ s : MutexSt, Event.callUnlock ∉ evs → s.lockedOrPending = true →
      (runM s evs).1.lockedOrPending = true := by
  induction evs with
  | nil => intro s _ h; exact h
  | cons e evs ih =>
      intro s hmem h
      have he : e ≠ .callUnlock := by
        intro hh; exact hmem (by rw [hh]; exact List.mem_cons_self _ _)
      have hmem2 : Event.callUnlock ∉ evs := fun hh => hmem (List.mem_cons_of_mem _ hh)
      simp only [runM]
      exact ih _ hmem2 (step_preserves_lockedOrPending s e he h)

/-- Claim C10 (implicit): when the arbiter call of an acquisition rejects —
at the initial `tryAcquire` or during the contended wait — `lock()`
rejects but the failing segment leaves `lockedOrPending` true; every
subsequent `lock()` therefore takes the local-queue branch, appending to
`localQueue` with no effects at all, and `lockedOrPending` stays true
across any further events as long as no `unlock()` is called. -/
theorem lock_transport_failure_no_rollback (s1 s2 s3 : MutexSt)
    (id o j : Nat) (evs : List Event)
    (h1a : s1.acq = .awaitFirstTry id) (h1b : s1.lockedOrPending = true)
    (h2a : s2.acq = .contended id (o + 1)) (h2b : s2.lockedOrPending = true)
    (h3 : s3.lockedOrPending = true) (h4 : Event.callUnlock ∉ evs) :
    step s1 .tryErr = ({ s1 with acq := .idle }, [.rejectLock id]) ∧
    (step s1 .tryErr).1.lockedOrPending = true ∧
    step s2 .tryErr
      = ({ s2 with acq := .idle, zombies := s2.zombies + o }, [.rejectLock id]) ∧
    (step s2 .tryErr).1.lockedOrPending = true ∧
    step s3 (.callLock j) = ({ s3 with localQueue := s3.localQueue ++ [j] }, []) ∧
    (runM s3 evs).1.lockedOrPending = true := by
  have e1 : step s1 .tryErr = ({ s1 with acq := .idle }, [.rejectLock id]) := by
    simp [step, h1a]
  have e2 : step s2 .tryErr
      = ({ s2 with acq := .idle, zombies := s2.zombies + o }, [.rejectLock id]) := by
    simp [step, h2a]
  refine ⟨e1, ?_, e2, ?_, ?_, ?_⟩
  · rw [e1]; exact h1b
  · rw [e2]; exact h2b
  · simp [step, h3]
  · exact runM_preserves_lockedOrPending evs s3 h4 h3

theorem lock_transport_failure_no_rollback_witness :
    step { lockedOrPending := true, waitingListener := true, acq := .awaitFirstTry 2 } .tryErr
      = ({ lockedOrPending := true, waitingListener := true, acq := .idle },
         [.rejectLock 2]) ∧
    (step { lockedOrPending := true, waitingListener := true,
            acq := .awaitFirstTry 2 } .tryErr).1.lockedOrPending = true ∧
    step { lockedOrPending := true, waitingListener := true, acq := .contended 2 1 } .tryErr
      = ({ lockedOrPending := true, waitingListener := true, acq := .idle, zombies := 0 },
         [.rejectLock 2]) ∧
    (step { lockedOrPending := true, waitingListener := true,
            acq := .contended 2 1 } .tryErr).1.lockedOrPending = true ∧
    step { lockedOrPending := true, waitingListener := true } (.callLock 8)
      = ({ lockedOrPending := true, waitingListener := true, localQueue := [8] }, []) ∧
    (runM { lockedOrPending := true, waitingListener := true }
        [.callLock 8, .msg .waiting, .timer, .tryErr]).1.lockedOrPending = true :=
  lock_transport_failure_no_rollback
    { lockedOrPending := true, waitingListener := true, acq := .awaitFirstTry 2 }
    { lockedOrPending := true, waitingListener := true, acq := .contended 2 1 }
    { lockedOrPending := true, waitingListener := true }
    2 0 8 [.callLock 8, .msg .waiting, .timer, .tryErr]
    rfl rfl rfl rfl rfl (by decide)

/-- Helper: running a concatenation of event lists concatenates effects. -/
lemma runM_append (xs ys : List Event) :
    ∀ s : MutexSt, runM s (xs ++ ys)
      = ((runM (runM s xs).1 ys).1, (runM s xs).2 ++ (runM (runM s xs).1 ys).2) := by
  induction xs with
  | nil => intro s; simp [runM]
  | cons e xs ih => intro s; simp [runM, ih, List.append_assoc]

/-- Helper: `lock()` calls issued while `lockedOrPending` only append their
waiter to `localQueue`, in call order, with no effects. -/
lemma lock_while_held_queues (ids : List Nat) :
    ∀ s : MutexSt, s.lockedOrPending = true →
      runM s (ids.map Event.callLock)
        = ({ s with localQueue := s.localQueue ++ ids }, []) := by
  induction ids with
  | nil => intro s h; simp [runM]
  | cons id ids ih =>
      intro s h
      have hstep : step s (.callLock id)
          = ({ s with localQueue := s.localQueue ++ [id] }, []) := by
        simp [step, h]
      have hrec := ih { s with localQueue := s.localQueue ++ [id] } h
      simp only [List.map, runM, hstep, hrec]
      simp

/-- Helper: successive `unlock()` calls resolve the queued waiters from the
front, granting them in queue order. -/
lemma unlock_grants_queue (q : List Nat) :
    ∀ s : MutexSt, s.lockedOrPending = true → s.localQueue = q →
      (runM s (List.replicate q.length Event.callUnlock)).2.filterMap grantedId = q := by
  induction q with
  | nil => intro s h hq; simp [runM]
  | cons w rest ih =>
      intro s h hq
      have hstep : step s .callUnlock
          = ({ s with localQueue := rest }, [.resolveLock w, .unlockResolved]) := by
        simp [step, h, hq]
      have hrec := ih { s with localQueue := rest } h rfl
      simp only [List.length_cons, List.replicate_succ, runM, hstep]
      simp [grantedId, hrec]

/-- Claim C6: `lock()` calls issued while the Mutex is `lockedOrPending` are
appended to `localQueue` in issue order, and successive `unlock()` calls
grant the lock (resolve the waiters) in exactly that order — strict FIFO. -/
theorem mutex_local_fifo (s : MutexSt) (ids : List Nat) (h : s.lockedOrPending = true) :
    (runM s (ids.map Event.callLock)).1.localQueue = s.localQueue ++ ids ∧
    (runM s (ids.map Event.callLock
        ++ List.replicate (s.localQueue ++ ids).length Event.callUnlock)).2.filterMap
        grantedId
      = s.localQueue ++ ids := by
  have hq := lock_while_held_queues ids s h
  constructor
  · rw [hq]
  · rw [runM_append, hq]
    have hrec := unlock_grants_queue (s.localQueue ++ ids)
      { s with localQueue := s.localQueue ++ ids } h rfl
    simpa using hrec

theorem mutex_local_fifo_witness :
    (runM { lockedOrPending := true } ([3, 1, 2].map Event.callLock)).1.localQueue
      = ({ lockedOrPending := true } : MutexSt).localQueue ++ [3, 1, 2] ∧
    (runM { lockedOrPending := true } ([3, 1, 2].map Event.callLock
        ++ List.replicate (({ lockedOrPending := true } : MutexSt).localQueue
            ++ [3, 1, 2]).length Event.callUnlock)).2.filterMap grantedId
      = ({ lockedOrPending := true } : MutexSt).localQueue ++ [3, 1, 2] :=
  mutex_local_fifo { lockedOrPending := true } [3, 1, 2] rfl

/-- Helper: along any discipline-respecting trace of host operations, the
host stays occupied while some acquirer is inside its critical section. -/
lemma hostRun_locked_of_holder (ops : List HostOp) :
    ∀ s t : HostSys, hostRun s ops = some t →
      (s.holder.isSome → s.host.locked = true) →
      (t.holder.isSome → t.host.locked = true) := by
  induction ops with
  | nil =>
      intro s t h hs
      simp only [hostRun, Option.some_inj] at h
      exact h ▸ hs
  | cons op ops ih =>
      intro s t h hs
      cases op with
      | tryAcquire w =>
          simp only [hostRun, hostStep] at h
          refine ih _ t h ?_
          intro _
          by_cases hl : s.host.locked
          · simp [LockHost.lock, hl]
          · simp [LockHost.lock, hl]
      | release w =>
          simp only [hostRun, hostStep] at h
          by_cases hw : s.holder = some w
          · rw [if_pos hw] at h
            refine ih _ t h ?_
            intro hcontra
            simp at hcontra
          · rw [if_neg hw] at h
            exact absurd h (by simp)

/-- Claim C1: for every reachable state of one lock host shared by any number
of acquirers (under the matching-release discipline the Mutex protocol
follows: a release is the matching release of the holder's successful
`tryAcquire`), at most one acquirer is inside its critical section —
`holder` carries the acquirer between a `tryAcquire` that returned true
and the matching `release`, it is unique, and while it exists the host is
occupied, so every other `tryAcquire` on that host returns false. -/
theorem mutex_mutual_exclusion (ops : List HostOp) (t : HostSys) (w v : Nat)
    (h : hostRun hostInit ops = some t) (hw : t.holder = some w)
    (hv : t.holder = some v) :
    v = w ∧ t.host.locked = true ∧ (t.host.lock).1 = false := by
  have hbase : hostInit.holder.isSome → hostInit.host.locked = true := by
    intro hh; exact absurd hh (by decide)
  have hl : t.host.locked = true :=
    hostRun_locked_of_holder ops hostInit t h hbase (by rw [hw]; rfl)
  refine ⟨?_, hl, ?_⟩
  · rw [hw] at hv; exact (Option.some_inj.mp hv).symm
  · simp [LockHost.lock, hl]

theorem mutex_mutual_exclusion_witness :
    (0 : Nat) = 0 ∧
    ({ host := { locked := true }, holder := some 0 } : HostSys).host.locked = true ∧
    (({ host := { locked := true }, holder := some 0 } : HostSys).host.lock).1 = false :=
  mutex_mutual_exclusion [.tryAcquire 0, .tryAcquire 1]
    { host := { locked := true }, holder := some 0 } 0 0 rfl rfl rfl

end Xxscreeps
